import Mathlib

/-!
Verification of the session/execution engine of an interactive CLI
orchestrator for an AI coding assistant (the open-ptc-agent repository).

The development shallowly embeds the parts of the source relevant to the
frozen claims:

* the filesystem / search / bash tool layer
  (`src/agent/tools/filesystem/file_ops.py`, `src/agent/tools/search/glob.py`,
  `src/agent/tools/search/grep.py`, `src/agent/tools/bash/execute.py`);
* the session persistence layer (`libs/ptc-cli/ptc_cli/agent/persistence.py`);
* the agent lifecycle (`libs/ptc-cli/ptc_cli/agent/lifecycle.py`);
* the streaming executor (`libs/ptc-cli/ptc_cli/streaming/executor.py`).

Python strings are modelled as `List Char` / `String` (sequences of code
points, which is what Python strings are); machine-level hashing uses `Nat`
arithmetic modulo `2 ^ 32`.  Opaque collaborators (the remote sandbox rpc
backend, the model stream) are modelled as explicit function parameters or
event lists, and every call made to the backend is recorded in a trace so
that claims of the form "returns without contacting the backend" are
statable.
-/

/-! ## Basic string utilities (Python semantics) -/

/-- Characters that `str.splitlines` treats as line boundaries in Python. -/
def isLineBreak (c : Char) : Bool :=
  c = '\n' || c = '\r' || c.toNat = 11 || c.toNat = 12 ||
  c.toNat = 28 || c.toNat = 29 || c.toNat = 30 || c.toNat = 133 ||
  c.toNat = 8232 || c.toNat = 8233

/-- Worker for `splitlinesList`: split at every line boundary (treating
`\r\n` as one boundary), always emitting a final segment; `acc` is the
current (reversed) line. -/
def slAll : List Char → List Char → List (List Char)
  | [], acc => [acc.reverse]
  | '\r' :: '\n' :: cs2, acc => acc.reverse :: slAll cs2 []
  | c :: cs, acc =>
    if isLineBreak c then acc.reverse :: slAll cs []
    else slAll cs (c :: acc)

/-- Python `str.splitlines`: split at line boundaries, a terminating final
boundary does not produce a trailing empty line. -/
def splitlinesList (cs : List Char) : List (List Char) :=
  match cs with
  | [] => []
  | _ =>
    if isLineBreak (cs.getLastD ' ') then (slAll cs []).dropLast
    else slAll cs []

/-- Decimal digit characters. -/
def decChars : List Char := "0123456789".data

/-- The decimal digit character for `d` (defined for `d < 10`). -/
def digChar (d : Nat) : Char := decChars.getD d '0'

/-- Fuelled decimal rendering worker (the fuel only bounds the recursion;
`natDigits` supplies enough for any input). -/
def natDigitsAux : Nat → Nat → List Char
  | 0, n => [digChar n]
  | fuel + 1, n =>
    if n < 10 then [digChar n]
    else natDigitsAux fuel (n / 10) ++ [digChar (n % 10)]

/-- Decimal rendering of a natural number, most significant digit first
(the same text Python produces for a nonnegative int). -/
def natDigits (n : Nat) : List Char := natDigitsAux n n

/-- Python format spec `>6`: right-align in a field of (at least) six
characters, padding with spaces. -/
def rightAlign6 (cs : List Char) : List Char :=
  List.replicate (6 - cs.length) ' ' ++ cs

/-- Number of bytes of the UTF-8 encoding of a character (as produced by
Python `str.encode("utf-8")`). -/
def utf8CharLen (c : Char) : Nat :=
  if c.toNat < 128 then 1
  else if c.toNat < 2048 then 2
  else if c.toNat < 65536 then 3
  else 4

/-- Number of bytes of the UTF-8 encoding of a string; Python
`len(content.encode("utf-8"))`. -/
def utf8Len (s : String) : Nat := (s.data.map utf8CharLen).sum

/-- Python `str.lower` restricted to ASCII (sufficient for the classifier
substrings used by the source, which are ASCII). -/
def asciiLower (c : Char) : Char :=
  if 65 ≤ c.toNat && c.toNat ≤ 90 then Char.ofNat (c.toNat + 32) else c

/-- Lowercase a whole string (ASCII). -/
def lowerStr (s : String) : String := String.mk (s.data.map asciiLower)

/-- Python whitespace characters (for `str.strip` / `str.lstrip` /
`str.rstrip`). -/
def isPyWhite (c : Char) : Bool :=
  c = ' ' || c = '\t' || c = '\n' || c = '\r' || c.toNat = 11 || c.toNat = 12

/-- Python `str.lstrip()`. -/
def lstripStr (s : String) : String := String.mk (s.data.dropWhile isPyWhite)

/-- Python `str.rstrip()`. -/
def rstripStr (s : String) : String :=
  String.mk ((s.data.reverse.dropWhile isPyWhite).reverse)

/-- Python `str.strip()`. -/
def stripStr (s : String) : String := lstripStr (rstripStr s)

/-- Does `cs` begin with `p` (Python `str.startswith`)? -/
def startsWithList : List Char → List Char → Bool
  | _, [] => true
  | [], _ :: _ => false
  | c :: cs, p :: ps => c = p && startsWithList cs ps

/-- Does the string `s` begin with `p`? -/
def strStartsWith (s p : String) : Bool := startsWithList s.data p.data

/-- Does `hay` contain `needle` as a contiguous subsequence (Python
`needle in hay`)? -/
def containsSeq (needle : List Char) : List Char → Bool
  | [] => startsWithList [] needle
  | c :: cs => startsWithList (c :: cs) needle || containsSeq needle cs

/-- Substring test on strings. -/
def strContains (hay needle : String) : Bool := containsSeq needle.data hay.data

/-- An apostrophe character, used when rendering source messages that quote
their arguments. -/
def quoteChar : Char := Char.ofNat 39

/-- One-character string holding an apostrophe. -/
def qS : String := String.singleton quoteChar

/-- Split a character list at each occurrence of `sep` (Python
`str.split(sep)` for a one-character separator: always at least one piece,
empty pieces preserved). -/
def splitOnCharList (sep : Char) : List Char → List (List Char)
  | [] => [[]]
  | c :: cs =>
    let rest := splitOnCharList sep cs
    if c = sep then [] :: rest
    else
      match rest with
      | [] => [[c]]
      | r :: rs => (c :: r) :: rs

/-! ## Filesystem / search tool layer

Embedding of `src/agent/tools/filesystem/file_ops.py`,
`src/agent/tools/search/glob.py` and `src/agent/tools/search/grep.py`.
The remote sandbox backend is opaque in the source (`PTCSandbox`); it is
modelled as a file store plus abstract functions, and each backend
invocation performed by a tool is recorded in a `BackendOp` trace. -/

/-- Backend operations a tool can invoke on the sandbox (beyond the local
path utilities `normalize_path` / `virtualize_path` / `validate_path`). -/
inductive BackendOp where
  | readOp (path : String)
  | readRangeOp (path : String) (offset limit : Nat)
  | writeOp (path content : String)
  | editOp (path oldString newString : String) (replaceAll : Bool)
  | globOp (pattern path : String)
  | grepOp (pattern path : String)
  | bashOp (command : String)
  deriving DecidableEq, Repr

/-- The sandbox file store (backend state): an association of absolute
paths to text contents. -/
structure SandboxFS where
  files : List (String × String)
  deriving Repr

/-- Look up a file in the store. -/
def SandboxFS.readF (fs : SandboxFS) (p : String) : Option String :=
  fs.files.lookup p

/-- Store a file (overwrite). -/
def SandboxFS.writeF (fs : SandboxFS) (p c : String) : SandboxFS :=
  ⟨(p, c) :: fs.files⟩

/-- Result of the backend `edit_file` rpc (a dict in the source). -/
structure EditBackendRes where
  success : Bool
  message : Option String
  error : Option String

/-- Grep output mode (the `Literal` type of the `output_mode` argument). -/
inductive GrepMode where
  | files_with_matches
  | content
  | count
  deriving DecidableEq, Repr

/-- Results returned by the backend `grep_content` rpc; the shape depends
on the requested output mode. -/
inductive GrepRes where
  | rFiles (files : List String)
  | rContent (entries : List String)
  | rCount (counts : List (String × Nat))

/-- Static sandbox configuration and opaque backend behaviour:
`enable_path_validation` and `validate_path` gate the tools; the remaining
fields model the opaque rpc client (`PTCSandbox`) of §6.2 of the spec. -/
structure SandboxCfg where
  enable_path_validation : Bool
  validate_path : String → Bool
  normalize_path : String → String
  virtualize_path : String → String
  writeOk : Bool
  editRes : String → String → String → Bool → EditBackendRes
  glob_files : String → String → List String
  grep_content : GrepMode → String → String → GrepRes

/-- Format one content line as the `read_file` tool does:
`f"{line_num:>6}→{line}"`. -/
def fmtNumLine (lineNum : Nat) (line : List Char) : List Char :=
  rightAlign6 (natDigits lineNum) ++ '→' :: line

/-- The `read_file` formatting loop (`for i, line in enumerate(lines)`),
carrying the running line number. -/
def numberLines (lineNum : Nat) : List (List Char) → List (List Char)
  | [] => []
  | l :: rest => fmtNumLine lineNum l :: numberLines (lineNum + 1) rest

/-- Number the lines of a content string starting at `startLine`, joining
with newlines (the `read_file` formatting of `content.splitlines()`). -/
def numberContent (startLine : Nat) (content : String) : String :=
  String.mk (List.intercalate ['\n']
    (numberLines startLine (splitlinesList content.data)))

/-- The access-denied message every path-validated tool returns:
`f"ERROR: Access denied: {file_path} is not in allowed directories"`. -/
def accessDeniedMsg (p : String) : String :=
  "ERROR: Access denied: " ++ p ++ " is not in allowed directories"

/-- The `read_file` tool (file_ops.py): validate the normalized path, read
via the backend, format with 1-indexed right-aligned line numbers.  Returns
the tool result string and the trace of backend calls made. -/
def read_file (cfg : SandboxCfg) (fs : SandboxFS) (file_path : String)
    (offset limit : Option Nat) : String × List BackendOp :=
  let np := cfg.normalize_path file_path
  if cfg.enable_path_validation && !(cfg.validate_path np) then
    (accessDeniedMsg file_path, [])
  else
    if offset.isSome || limit.isSome then
      -- read_file_range path (offset or 1) (limit or 2000); backend rpc,
      -- modelled as a line slice of the stored content
      let o := match offset with | none => 1 | some 0 => 1 | some k => k
      let l := match limit with | none => 2000 | some 0 => 2000 | some k => k
      match fs.readF np with
      | none => ("ERROR: File not found: " ++ file_path, [.readRangeOp np o l])
      | some content =>
        let lines := (splitlinesList content.data).drop (o - 1) |>.take l
        let sliced := String.mk (List.intercalate ['\n'] lines)
        (numberContent o sliced, [.readRangeOp np o l])
    else
      match fs.readF np with
      | none => ("ERROR: File not found: " ++ file_path, [.readOp np])
      | some content => (numberContent 1 content, [.readOp np])

/-- The `write_file` tool (file_ops.py): validate, write via the backend,
report the number of UTF-8 bytes written and the virtualized path.  Returns
the result string, the new file store and the backend trace. -/
def write_file (cfg : SandboxCfg) (fs : SandboxFS) (file_path content : String) :
    String × SandboxFS × List BackendOp :=
  let np := cfg.normalize_path file_path
  if cfg.enable_path_validation && !(cfg.validate_path np) then
    (accessDeniedMsg file_path, fs, [])
  else
    if cfg.writeOk then
      ("Wrote " ++ String.mk (natDigits (utf8Len content)) ++ " bytes to " ++
        cfg.virtualize_path np,
       fs.writeF np content, [.writeOp np content])
    else
      ("ERROR: Write operation failed", fs, [.writeOp np content])

/-- The `edit_file` tool (file_ops.py): validate, call the backend edit rpc,
render its success or error message. -/
def edit_file (cfg : SandboxCfg) (file_path old_string new_string : String)
    (replace_all : Bool) : String × List BackendOp :=
  let np := cfg.normalize_path file_path
  if cfg.enable_path_validation && !(cfg.validate_path np) then
    (accessDeniedMsg file_path, [])
  else
    let res := cfg.editRes np old_string new_string replace_all
    if !res.success then
      ("ERROR: " ++ res.error.getD "Edit operation failed",
       [.editOp np old_string new_string replace_all])
    else
      (res.message.getD "File edited successfully",
       [.editOp np old_string new_string replace_all])

/-- The `glob` tool (glob.py): validate the normalized search path, list
matches via the backend, virtualize and render them. -/
def glob (cfg : SandboxCfg) (pattern : String) (path : Option String) :
    String × List BackendOp :=
  let search_path := path.getD "."
  let np := cfg.normalize_path search_path
  if cfg.enable_path_validation && !(cfg.validate_path np) then
    (accessDeniedMsg search_path, [])
  else
    let ms := cfg.glob_files pattern np
    match ms with
    | [] =>
      ("No files matching pattern " ++ qS ++ pattern ++ qS ++ " found in " ++
        qS ++ search_path ++ qS, [.globOp pattern np])
    | _ =>
      let vm := ms.map cfg.virtualize_path
      (rstripStr ("Found " ++ String.mk (natDigits vm.length) ++
        " file(s) matching " ++ qS ++ pattern ++ qS ++ ":\n" ++
        String.join (vm.map (fun m => m ++ "\n"))), [.globOp pattern np])

/-- Split `cs` before and after the first occurrence of `sep`, if any. -/
def breakAtChar (sep : Char) : List Char → Option (List Char × List Char)
  | [] => none
  | c :: cs =>
    if c = sep then some ([], cs)
    else
      match breakAtChar sep cs with
      | none => none
      | some (b, a) => some (c :: b, a)

/-- Python `s.split(sep, maxsplit)` for a one-character separator. -/
def splitAtMost (sep : Char) : Nat → List Char → List (List Char)
  | 0, cs => [cs]
  | m + 1, cs =>
    match breakAtChar sep cs with
    | none => [cs]
    | some (b, a) => b :: splitAtMost sep m a

/-- Virtualize the path part of a `path:line:content` grep entry, as the
grep tool does for `content` mode (`entry.split(":", 2)`, virtualize the
first part, rejoin with `":"`). -/
def grepVirtualizeEntry (virt : String → String) (entry : String) : String :=
  if strContains entry ":" then
    let parts := splitAtMost ':' 2 entry.data
    if parts.length ≥ 2 then
      match parts with
      | p0 :: rest =>
        String.intercalate ":" (virt (String.mk p0) :: rest.map String.mk)
      | [] => entry
    else entry
  else entry

/-- The `grep` tool (grep.py): validate the normalized search path, run the
backend search, render the results for the requested output mode. -/
def grep (cfg : SandboxCfg) (pattern : String) (path : Option String)
    (output_mode : GrepMode) : String × List BackendOp :=
  let search_path := path.getD "."
  let np := cfg.normalize_path search_path
  if cfg.enable_path_validation && !(cfg.validate_path np) then
    (accessDeniedMsg search_path, [])
  else
    let results := cfg.grep_content output_mode pattern np
    let empty :=
      match results with
      | .rFiles l => l.isEmpty
      | .rContent l => l.isEmpty
      | .rCount l => l.isEmpty
    if empty then
      ("No matches found for pattern " ++ qS ++ pattern ++ qS ++ " in " ++
        qS ++ search_path ++ qS, [.grepOp pattern np])
    else
      let body :=
        match results with
        | .rFiles files =>
          "Found matches in " ++ String.mk (natDigits files.length) ++
            " file(s):\n" ++
            String.join (files.map (fun f => cfg.virtualize_path f ++ "\n"))
        | .rContent entries =>
          "Matches for pattern " ++ qS ++ pattern ++ qS ++ ":\n\n" ++
            String.join (entries.map
              (fun e => grepVirtualizeEntry cfg.virtualize_path e ++ "\n"))
        | .rCount counts =>
          "Match counts for pattern " ++ qS ++ pattern ++ qS ++ ":\n" ++
            String.join (counts.map
              (fun pr => cfg.virtualize_path pr.1 ++ ": " ++
                String.mk (natDigits pr.2) ++ "\n"))
      (rstripStr body, [.grepOp pattern np])

/-! ## Bash tool

Embedding of `src/agent/tools/bash/execute.py`. -/

/-- Result of the backend `execute_bash_command` rpc. -/
structure BashBackendRes where
  success : Bool
  stdout : String
  stderr : String
  exit_code : Int

/-- The arguments the Bash tool actually passes to the backend. -/
structure BashCall where
  command : String
  working_dir : String
  timeoutSeconds : ℚ
  background : Bool

/-- Decimal rendering of an integer. -/
def intDigits (i : Int) : List Char :=
  if i < 0 then '-' :: natDigits i.natAbs else natDigits i.natAbs

/-- The timeout (in seconds) the Bash tool passes to the sandbox:
`timeout / 1000 if timeout else 120` (milliseconds to seconds; a missing or
zero timeout falls back to 120 s).  No clamping is performed. -/
def bashTimeoutSeconds (timeout : Option ℚ) : ℚ :=
  match timeout with
  | none => 120
  | some t => if t = 0 then 120 else t / 1000

/-- Output combination of the Bash tool on success: `output = stdout`;
`if stderr: output += f"\n{stderr}" if output else stderr`. -/
def bashCombineOutput (stdout stderr : String) : String :=
  if stderr ≠ "" then
    (if stdout ≠ "" then stdout ++ "\n" ++ stderr else stderr)
  else stdout

/-- The `Bash` tool (execute.py): convert the millisecond timeout to
seconds, run the command via the backend, render combined output, the
no-output success message, or the failure message.  Returns the result
string and the call passed to the backend. -/
def Bash (command : String) (timeout : Option ℚ) (run_in_background : Bool)
    (working_dir : String) (res : BashBackendRes) : String × BashCall :=
  let call : BashCall :=
    ⟨command, working_dir, bashTimeoutSeconds timeout, run_in_background⟩
  if res.success then
    let output := bashCombineOutput res.stdout res.stderr
    if output ≠ "" then (output, call)
    else ("Command completed successfully", call)
  else
    ("ERROR: Command failed (exit code " ++ String.mk (intDigits res.exit_code) ++
      ")\n" ++ res.stderr, call)

/-! ## SHA-256 and the configuration fingerprint

Embedding of `get_session_config_hash` in
`libs/ptc-cli/ptc_cli/agent/persistence.py`: a canonical JSON rendering of
the session-relevant configuration fields is digested with SHA-256 and the
first eight hex characters are kept.  SHA-256 (Python `hashlib.sha256`) is
implemented below over byte lists with `Nat` arithmetic modulo `2 ^ 32`. -/

/-- Lowercase hexadecimal digit characters. -/
def hexChars : List Char := "0123456789abcdef".data

/-- The hex digit character for `d` (defined for `d < 16`). -/
def hxD (d : Nat) : Char := hexChars.getD d '0'

/-- Addition modulo `2 ^ 32`. -/
def a32 (x y : Nat) : Nat := (x + y) % 4294967296

/-- Right rotation of a 32-bit word by `k` bits. -/
def rotr32 (k x : Nat) : Nat :=
  ((x >>> k) ||| (x <<< (32 - k))) % 4294967296

/-- SHA-256 big sigma 0. -/
def bigS0 (x : Nat) : Nat := rotr32 2 x ^^^ rotr32 13 x ^^^ rotr32 22 x

/-- SHA-256 big sigma 1. -/
def bigS1 (x : Nat) : Nat := rotr32 6 x ^^^ rotr32 11 x ^^^ rotr32 25 x

/-- SHA-256 small sigma 0. -/
def smallS0 (x : Nat) : Nat := rotr32 7 x ^^^ rotr32 18 x ^^^ (x >>> 3)

/-- SHA-256 small sigma 1. -/
def smallS1 (x : Nat) : Nat := rotr32 17 x ^^^ rotr32 19 x ^^^ (x >>> 10)

/-- SHA-256 choose function. -/
def shaCh (x y z : Nat) : Nat := (x &&& y) ^^^ ((x ^^^ 4294967295) &&& z)

/-- SHA-256 majority function. -/
def shaMaj (x y z : Nat) : Nat := (x &&& y) ^^^ (x &&& z) ^^^ (y &&& z)

/-- The 64 SHA-256 round constants (decimal). -/
def K256 : List Nat :=
  [1116352408, 1899447441, 3049323471, 3921009573, 961987163,
   1508970993, 2453635748, 2870763221, 3624381080, 310598401,
   607225278, 1426881987, 1925078388, 2162078206, 2614888103,
   3248222580, 3835390401, 4022224774, 264347078, 604807628,
   770255983, 1249150122, 1555081692, 1996064986, 2554220882,
   2821834349, 2952996808, 3210313671, 3336571891, 3584528711,
   113926993, 338241895, 666307205, 773529912, 1294757372,
   1396182291, 1695183700, 1986661051, 2177026350, 2456956037,
   2730485921, 2820302411, 3259730800, 3345764771, 3516065817,
   3600352804, 4094571909, 275423344, 430227734, 506948616,
   659060556, 883997877, 958139571, 1322822218, 1537002063,
   1747873779, 1955562222, 2024104815, 2227730452, 2361852424,
   2428436474, 2756734187, 3204031479, 3329325298]

/-- Big-endian 8-byte rendering of a (64-bit) length value. -/
def lenBytes8 (n : Nat) : List Nat :=
  [n >>> 56 % 256, n >>> 48 % 256, n >>> 40 % 256, n >>> 32 % 256,
   n >>> 24 % 256, n >>> 16 % 256, n >>> 8 % 256, n % 256]

/-- SHA-256 message padding: append `0x80`, zero-pad to 56 mod 64, append
the bit length as 8 big-endian bytes. -/
def shaPad (ms : List Nat) : List Nat :=
  let L := ms.length
  let r := (L + 1) % 64
  let k := (120 - r) % 64
  ms ++ 128 :: (List.replicate k 0 ++ lenBytes8 (8 * L))

/-- Split a byte list into 64-byte blocks. -/
def toBlocks : List Nat → List (List Nat)
  | [] => []
  | m :: ms => ((m :: ms).take 64) :: toBlocks ((m :: ms).drop 64)
  termination_by ms => ms.length
  decreasing_by simp [List.length_drop]; omega

/-- Combine bytes into big-endian 32-bit words. -/
def bytesToWords : List Nat → List Nat
  | b0 :: b1 :: b2 :: b3 :: rest =>
    (((b0 * 256 + b1) * 256 + b2) * 256 + b3) :: bytesToWords rest
  | _ => []

/-- One extension step of the SHA-256 message schedule: append
`σ1(w[n-2]) + w[n-7] + σ0(w[n-15]) + w[n-16]`. -/
def extendStep (w : List Nat) : List Nat :=
  let n := w.length
  w ++ [a32 (a32 (smallS1 (w.getD (n - 2) 0)) (w.getD (n - 7) 0))
          (a32 (smallS0 (w.getD (n - 15) 0)) (w.getD (n - 16) 0))]

/-- The 64-entry message schedule from a 16-word block. -/
def msgSchedule (w16 : List Nat) : List Nat :=
  (List.range 48).foldl (fun w _ => extendStep w) w16

/-- SHA-256 working state (eight 32-bit words). -/
structure Hash8 where
  a0 : Nat
  b0 : Nat
  c0 : Nat
  d0 : Nat
  e0 : Nat
  f0 : Nat
  g0 : Nat
  hh : Nat

/-- One SHA-256 compression round. -/
def shaRound (st : Hash8) (k w : Nat) : Hash8 :=
  let t1 := a32 (a32 (a32 st.hh (bigS1 st.e0)) (a32 (shaCh st.e0 st.f0 st.g0) k)) w
  let t2 := a32 (bigS0 st.a0) (shaMaj st.a0 st.b0 st.c0)
  ⟨a32 t1 t2, st.a0, st.b0, st.c0, a32 st.d0 t1, st.e0, st.f0, st.g0⟩

/-- The SHA-256 initial hash value (decimal). -/
def shaInit : Hash8 :=
  ⟨1779033703, 3144134277, 1013904242, 2773480762,
   1359893119, 2600822924, 528734635, 1541459225⟩

/-- Compress one 64-byte block into the running hash state. -/
def compressBlock (st : Hash8) (block : List Nat) : Hash8 :=
  let w := msgSchedule (bytesToWords block)
  let f := (List.zip K256 w).foldl (fun s pr => shaRound s pr.1 pr.2) st
  ⟨a32 st.a0 f.a0, a32 st.b0 f.b0, a32 st.c0 f.c0, a32 st.d0 f.d0,
   a32 st.e0 f.e0, a32 st.f0 f.f0, a32 st.g0 f.g0, a32 st.hh f.hh⟩

/-- The eight 32-bit words of the SHA-256 digest of a byte list. -/
def sha256Words (ms : List Nat) : List Nat :=
  let st := (toBlocks (shaPad ms)).foldl compressBlock shaInit
  [st.a0, st.b0, st.c0, st.d0, st.e0, st.f0, st.g0, st.hh]

/-- Eight lowercase hex characters of a 32-bit word. -/
def hex8 (w : Nat) : List Char :=
  [hxD (w / 268435456 % 16), hxD (w / 16777216 % 16), hxD (w / 1048576 % 16),
   hxD (w / 65536 % 16), hxD (w / 4096 % 16), hxD (w / 256 % 16),
   hxD (w / 16 % 16), hxD (w % 16)]

/-- The 64-character lowercase hex digest of a byte list
(Python `hashlib.sha256(b).hexdigest()`). -/
def sha256hexChars (ms : List Nat) : List Char :=
  ((sha256Words ms).map hex8).flatten

/-- UTF-8 encoding of one character. -/
def utf8CharBytes (c : Char) : List Nat :=
  let n := c.toNat
  if n < 128 then [n]
  else if n < 2048 then [192 + n / 64, 128 + n % 64]
  else if n < 65536 then [224 + n / 4096, 128 + n / 64 % 64, 128 + n % 64]
  else [240 + n / 262144, 128 + n / 4096 % 64, 128 + n / 64 % 64, 128 + n % 64]

/-- UTF-8 encoding of a string (Python `config_str.encode()`). -/
def utf8Bytes (s : String) : List Nat := (s.data.map utf8CharBytes).flatten

/-- Four lowercase hex characters of a 16-bit value (for JSON `\uXXXX`
escapes). -/
def hex4 (n : Nat) : List Char :=
  [hxD (n / 4096 % 16), hxD (n / 256 % 16), hxD (n / 16 % 16), hxD (n % 16)]

/-- JSON escape of one character, as Python `json.dumps` renders it with
the default `ensure_ascii=True` (ASCII printables literal, shorthand
escapes, `\uXXXX` otherwise, surrogate pairs beyond the BMP). -/
def jsonEscChar (c : Char) : List Char :=
  if c = '"' then ['\\', '"']
  else if c = '\\' then ['\\', '\\']
  else if c = '\n' then ['\\', 'n']
  else if c = '\t' then ['\\', 't']
  else if c = '\r' then ['\\', 'r']
  else if c.toNat = 8 then ['\\', 'b']
  else if c.toNat = 12 then ['\\', 'f']
  else if c.toNat < 32 then '\\' :: 'u' :: hex4 c.toNat
  else if c.toNat < 127 then [c]
  else if c.toNat < 65536 then '\\' :: 'u' :: hex4 c.toNat
  else
    let v := c.toNat - 65536
    ('\\' :: 'u' :: hex4 (55296 + v / 1024)) ++ ('\\' :: 'u' :: hex4 (56320 + v % 1024))

/-- JSON rendering of a string. -/
def jsonStr (s : String) : String :=
  String.mk ('"' :: (s.data.map jsonEscChar).flatten ++ ['"'])

/-- JSON rendering of an optional string (`None` renders as `null`). -/
def jsonOptStr : Option String → String
  | none => "null"
  | some s => jsonStr s

/-- JSON rendering of a boolean. -/
def jsonBool (b : Bool) : String := if b then "true" else "false"

/-- JSON rendering of a list of strings with the `json.dumps` default
separator. -/
def jsonStrList (xs : List String) : String :=
  "[" ++ String.intercalate ", " (xs.map jsonStr) ++ "]"

/-- MCP transport kinds (`Literal["stdio", "sse", "http"]`). -/
inductive Transport where
  | stdio
  | sse
  | http
  deriving DecidableEq, Repr

/-- The string value of a transport kind. -/
def Transport.str : Transport → String
  | .stdio => "stdio"
  | .sse => "sse"
  | .http => "http"

/-- `MCPServerConfig` (ptc_core/config.py).  Only `name`, `enabled`,
`transport`, `command` and `args` enter the session fingerprint; the other
fields are carried to show the fingerprint ignores them. -/
structure MCPServerConfig where
  name : String
  enabled : Bool
  description : String
  transport : Transport
  command : Option String
  args : List String
  url : Option String
  deriving DecidableEq, Repr

/-- `DaytonaConfig` (ptc_core/config.py).  Only `base_url`,
`python_version`, `snapshot_enabled` and `snapshot_name` enter the session
fingerprint. -/
structure DaytonaConfig where
  api_key : String
  base_url : String
  auto_stop_interval : Int
  python_version : String
  snapshot_enabled : Bool
  snapshot_name : Option String
  snapshot_auto_create : Bool
  deriving DecidableEq, Repr

/-- `MCPConfig` (ptc_core/config.py). -/
structure MCPConfig where
  servers : List MCPServerConfig
  tool_discovery_enabled : Bool
  deriving DecidableEq, Repr

/-- `CoreConfig` (ptc_core/config.py), restricted to the sections the
fingerprint touches plus representative ignored data. -/
structure CoreConfig where
  daytona : DaytonaConfig
  mcp : MCPConfig
  deriving DecidableEq, Repr

/-- The per-server dict built by `get_session_config_hash`
(`mcp_servers_data`): exactly the five fingerprint-relevant fields. -/
structure ServerDescriptor where
  name : String
  enabled : Bool
  transport : Transport
  command : Option String
  args : List String
  deriving DecidableEq, Repr

/-- Project a server config to the dict the hash is computed from. -/
def toDescriptor (s : MCPServerConfig) : ServerDescriptor :=
  ⟨s.name, s.enabled, s.transport, s.command, s.args⟩

/-- JSON rendering of one server dict with keys sorted
(`args`, `command`, `enabled`, `name`, `transport`). -/
def serverJson (d : ServerDescriptor) : String :=
  "\x7b\"args\": " ++ jsonStrList d.args ++
  ", \"command\": " ++ jsonOptStr d.command ++
  ", \"enabled\": " ++ jsonBool d.enabled ++
  ", \"name\": " ++ jsonStr d.name ++
  ", \"transport\": " ++ jsonStr d.transport.str ++ "\x7d"

/-- `sorted(mcp_servers_data, key=lambda x: x["name"])`: stable sort by
server name (code-point lexicographic, as in Python). -/
def sortDescriptors (ds : List ServerDescriptor) : List ServerDescriptor :=
  ds.mergeSort (fun a b => decide (a.name ≤ b.name))

/-- `json.dumps(config_data, sort_keys=True)`: the canonical JSON text the
fingerprint digests, with the five top-level keys in sorted order. -/
def configJson (c : CoreConfig) : String :=
  "\x7b\"daytona_base_url\": " ++ jsonStr c.daytona.base_url ++
  ", \"mcp_servers\": [" ++
    String.intercalate ", "
      ((sortDescriptors (c.mcp.servers.map toDescriptor)).map serverJson) ++
  "], \"python_version\": " ++ jsonStr c.daytona.python_version ++
  ", \"snapshot_enabled\": " ++ jsonBool c.daytona.snapshot_enabled ++
  ", \"snapshot_name\": " ++ jsonOptStr c.daytona.snapshot_name ++ "\x7d"

/-- `get_session_config_hash` (persistence.py): the first eight characters
of the SHA-256 hex digest of the canonical JSON rendering of the
session-relevant configuration. -/
def get_session_config_hash (c : CoreConfig) : String :=
  String.mk ((sha256hexChars (utf8Bytes (configJson c))).take 8)

/-! ## Session persistence

Embedding of `libs/ptc-cli/ptc_cli/agent/persistence.py`.  The session file
is modelled as `Option RawFile` (`none` = file missing); a syntactically
invalid file is `RawFile.badJson`; timestamps are instants in seconds, with
`TimeVal.malformed` standing for a `last_used` string that
`datetime.fromisoformat` rejects. -/

/-- A parsed `last_used` / `created_at` value: either an instant (with a
flag recording whether the source string carried a timezone — naive values
are interpreted as UTC, so the instant is already normalized), or a string
the datetime parser rejects. -/
inductive TimeVal where
  | malformed
  | parsed (t : Int) (hasTz : Bool)
  deriving DecidableEq, Repr

/-- The JSON object stored in `session.json` (fields optional, since the
source guards each one). -/
structure SessionData where
  sandbox_id : Option String
  config_hash : Option String
  created_at : Option TimeVal
  last_used : Option TimeVal
  deriving DecidableEq, Repr

/-- Contents of the session file when it exists. -/
inductive RawFile where
  | badJson
  | recF (d : SessionData)
  deriving DecidableEq, Repr

/-- Python truthiness of `data.get(key)` for a string field: falsy when the
key is absent or the value is the empty string. -/
def strFalsy : Option String → Bool
  | none => true
  | some s => s = ""

/-- Maximum age of a persisted session, in seconds (24 hours). -/
def sessionMaxAgeSeconds : Int := 86400

/-- `load_persisted_session` (persistence.py): returns the loaded data (or
`none`) together with the resulting state of the session file (`none` when
the file was deleted or was already missing).  A missing or empty required
field returns `none` WITHOUT deleting the file; invalid JSON, an
unparseable timestamp and an over-age record delete it. -/
def load_persisted_session (file : Option RawFile) (now : Int) :
    Option SessionData × Option RawFile :=
  match file with
  | none => (none, none)
  | some .badJson => (none, none)
  | some (.recF d) =>
    if strFalsy d.sandbox_id || strFalsy d.config_hash then
      (none, some (.recF d))
    else
      match d.last_used with
      | none => (some d, some (.recF d))
      | some .malformed => (none, none)
      | some (.parsed t _) =>
        if now - t > sessionMaxAgeSeconds then (none, none)
        else (some d, some (.recF d))

/-- `save_persisted_session` (persistence.py): write a fresh record with
`created_at` and `last_used` both equal to now. -/
def save_persisted_session (sandbox_id config_hash : String) (now : Int) : RawFile :=
  .recF ⟨some sandbox_id, some config_hash,
         some (.parsed now true), some (.parsed now true)⟩

/-- `update_session_last_used` (persistence.py): refresh `last_used` only;
missing file is a no-op, parse errors are suppressed. -/
def update_session_last_used (file : Option RawFile) (now : Int) : Option RawFile :=
  match file with
  | none => none
  | some .badJson => some .badJson
  | some (.recF d) => some (.recF { d with last_used := some (.parsed now true) })

/-! ## Agent lifecycle

Embedding of `create_agent_with_session`
(`libs/ptc-cli/ptc_cli/agent/lifecycle.py`).  The sandbox backend is
abstracted by `initOk` (whether `session.initialize(sandbox_id?)`
succeeds for a given argument) and `freshId` (the id a freshly created
sandbox exposes, if any). -/

/-- How the lifecycle call ends: normally, or by propagating an exception
from the fresh `initialize()`. -/
inductive LcOutcome where
  | ok
  | raisedInit
  deriving DecidableEq, Repr

/-- Observable outcome of `create_agent_with_session`: every `initialize`
call made (with its argument), the final state of the session file,
whether an existing sandbox was reused, and how the call ended. -/
structure LifecycleResult where
  initCalls : List (Option String)
  fileAfter : Option RawFile
  reusing : Bool
  outcome : LcOutcome
  deriving DecidableEq, Repr

/-- `create_agent_with_session` (lifecycle.py): resolve a sandbox id from
the explicit argument or the persisted session, try to reattach, fall back
to a fresh sandbox, and persist / touch / delete the session record
accordingly. -/
def create_agent_with_session (explicitId : Option String) (persist : Bool)
    (file : Option RawFile) (now : Int) (cfgHash : String)
    (initOk : Option String → Bool) (freshId : Option String) : LifecycleResult :=
  let pr :=
    match explicitId with
    | some sid => (some sid, file)
    | none =>
      if persist then
        match load_persisted_session file now with
        | (some d, f1) =>
          if d.config_hash = some cfgHash then (some (d.sandbox_id.getD ""), f1)
          else (none, none)
        | (none, f1) => (none, f1)
      else (none, file)
  match pr with
  | (some sid, f1) =>
    if initOk (some sid) then
      ⟨[some sid], if persist then update_session_last_used f1 now else f1,
       true, .ok⟩
    else
      if initOk none then
        ⟨[some sid, none],
         if persist && !(strFalsy freshId) then
           some (save_persisted_session (freshId.getD "") cfgHash now)
         else none,
         false, .ok⟩
      else ⟨[some sid, none], none, false, .raisedInit⟩
  | (none, f1) =>
    if initOk none then
      ⟨[none],
       if persist && !(strFalsy freshId) then
         some (save_persisted_session (freshId.getD "") cfgHash now)
       else f1,
       false, .ok⟩
    else ⟨[none], f1, false, .raisedInit⟩

/-! ## Tool-call chunk buffer and the displayed-set guard

The buffer class `ToolCallChunkBuffer`
(`ptc_cli/streaming/tool_buffer.py`) is not part of the corpus; its
accumulation behaviour is modelled from the spec (§4.3).  The
displayed-set guard around it is embedded from the source
(`streaming/executor.py`, the `tool_call_chunk` branch of
`execute_task`). -/

/-- Kind of a streamed content block carrying tool-call data: a partial
fragment (`"tool_call_chunk"`) or a whole call (`"tool_call"`). -/
inductive BType where
  | chunkFrag
  | callBlock
  deriving DecidableEq, Repr

/-- A streamed tool-call content block: optional chunk id, optional name,
an argument text piece, and whether the provider marked end-of-call for
this id. -/
structure ChunkBlock where
  btype : BType
  cid : Option String
  cname : Option String
  cargs : String
  lastPiece : Bool
  deriving DecidableEq, Repr

/-- An in-flight accumulation entry of the buffer, keyed by chunk id. -/
structure BufEntry where
  eid : String
  ename : String
  eargs : String
  deriving DecidableEq, Repr

/-- A completed tool call as returned by `add_chunk`. -/
structure CompletedTool where
  tid : Option String
  tname : String
  targs : String
  deriving DecidableEq, Repr

/-- Modelled from the spec: `ToolCallChunkBuffer.add_chunk`
(`ptc_cli/streaming/tool_buffer.py`, not in the corpus).  Per §4.3: for
each chunk id accumulate the name (first non-empty wins) and concatenate
argument text pieces in arrival order; a call is complete when the
provider delivers it whole (`tool_call`) or signals end-of-call with a
non-empty accumulated name.  Argument JSON parsing is kept as raw text
(the parse-failure fallback to empty args does not affect the claims
proved here). -/
def addChunk (es : List BufEntry) (b : ChunkBlock) :
    List BufEntry × Option CompletedTool :=
  match b.btype with
  | .callBlock => (es, some ⟨b.cid, (b.cname.getD ""), b.cargs⟩)
  | .chunkFrag =>
    match b.cid with
    | none => (es, none)
    | some k =>
      let e0 := (es.find? (fun e => e.eid == k)).getD ⟨k, "", ""⟩
      let e1 : BufEntry :=
        ⟨k, if e0.ename ≠ "" then e0.ename else (b.cname.getD ""),
         e0.eargs ++ b.cargs⟩
      if b.lastPiece && e1.ename ≠ "" then
        (es.filter (fun e => e.eid ≠ k), some ⟨some k, e1.ename, e1.eargs⟩)
      else if (es.find? (fun e => e.eid == k)).isSome then
        (es.map (fun e => if e.eid == k then e1 else e), none)
      else
        (es ++ [e1], none)

/-- The displayed-set guard of `execute_task` (executor.py, the
`tool_call_chunk` / `tool_call` branch): on a completed call with a
non-`None` id, skip it if the id was already displayed, otherwise mark it
displayed and emit it; a completed call without an id is emitted
unconditionally. -/
def execStep (es : List BufEntry) (disp : List String) (b : ChunkBlock) :
    (List BufEntry × List String) × Option CompletedTool :=
  match addChunk es b with
  | (es1, none) => ((es1, disp), none)
  | (es1, some t) =>
    match t.tid with
    | some k =>
      if disp.contains k then ((es1, disp), none)
      else ((es1, k :: disp), some t)
    | none => ((es1, disp), some t)

/-- Run the executor guard over a block stream, collecting the calls it
emits (displays / dispatches). -/
def runExec (es : List BufEntry) (disp : List String) :
    List ChunkBlock → List CompletedTool
  | [] => []
  | b :: bs =>
    match execStep es disp b with
    | (st1, none) => runExec st1.1 st1.2 bs
    | (st1, some t) => t :: runExec st1.1 st1.2 bs

/-- All completions the buffer produces over a block stream (before the
displayed-set guard). -/
def runCompletions (es : List BufEntry) : List ChunkBlock → List CompletedTool
  | [] => []
  | b :: bs =>
    match addChunk es b with
    | (es1, none) => runCompletions es1 bs
    | (es1, some t) => t :: runCompletions es1 bs

/-- Number of completed tool calls in `ts` carrying chunk id `k`. -/
def countId (k : String) (ts : List CompletedTool) : Nat :=
  (ts.filter (fun t => t.tid == some k)).length

/-! ## Sandbox-fault classification, recovery, one-retry discipline

`is_sandbox_error`, `recover_sandbox`, `EmptyResultTracker` and
`check_sandbox_health` (`ptc_cli/sandbox/recovery.py`, `health.py`) are
not in the corpus; they are modelled from the spec (§4.6).  The
per-turn retry structure is embedded from `execute_task` (executor.py):
the three recovery sites all require `_retry_count == 0`, and every
retry invocation passes `_retry_count=1` and the original user text. -/

/-- Modelled from the spec: `is_sandbox_error` (recovery.py, not in the
corpus).  A fault is any condition matching the substring set
`sandbox, disconnect, connection refused, no route, timed out, EOF`
case-insensitively. -/
def is_sandbox_error (msg : String) : Bool :=
  let m := lowerStr msg
  strContains m "sandbox" || strContains m "disconnect" ||
  strContains m "connection refused" || strContains m "no route" ||
  strContains m "timed out" || strContains m "eof"

/-- Modelled from the spec: the sensitive tools of the empty-result
heuristic (health.py, not in the corpus): filesystem read, glob, grep,
shell. -/
def sensitiveTools : List String := ["read_file", "glob", "grep", "shell"]

/-- Modelled from the spec: `EmptyResultTracker.record` (health.py, not in
the corpus).  An empty result from a sensitive tool bumps a streak
counter, anything else resets it; returns the new streak and whether it
exceeds the threshold (the numeric threshold is not fixed by the source
and is a parameter). -/
def emptyRecord (threshold streak : Nat) (name content : String) : Nat × Bool :=
  if sensitiveTools.contains name && stripStr content = "" then
    (streak + 1, streak + 1 > threshold)
  else (0, false)

/-- One event observed by `execute_task` during a turn: a tool result
message (name, status, rendered content), an exception terminating the
stream, or anything else. -/
inductive TurnEvent where
  | toolMsg (name status content : String)
  | exnMsg (msg : String)
  | plainEv
  deriving DecidableEq, Repr

/-- How the stream loop of one `execute_task` invocation (at a fixed
`_retry_count`) ends: stream exhausted; a recovery site INSIDE the
`try` fired (the tool-result site and the empty-streak site both
`return await execute_task(..., _retry_count=1)` from within the outer
`try:`); or the stream raised an exception, which leaves the loop and is
examined by the frame's `except` handler (modelled in `execute_task`). -/
inductive AttemptResult where
  | completedA
  | triggeredInTry
  | exnA (m : String)
  deriving DecidableEq, Repr

/-- The first recovery site of `execute_task` (executor.py): a tool
result that is not the shell/Bash failure rendering, whose content
lstripped and lowercased starts with `"error"`, is sandbox-classified,
and `_retry_count == 0`. -/
def toolTrigger1 (retry : Nat) (name status content : String) : Bool :=
  if (name == "shell" || name == "Bash") && status ≠ "success" then false
  else if content ≠ "" && strStartsWith (lowerStr (lstripStr content)) "error" then
    is_sandbox_error content && retry == 0
  else false

/-- Scan the events of one `execute_task` invocation carrying
`_retry_count = retry`: fire an in-`try` recovery site
(`triggeredInTry`), raise an exception out of the loop (`exnA`), or run
to completion.  The empty-result tracker state is threaded through every
tool message, and its site also requires `retry == 0` and a failed
health probe. -/
def runAttempt (retry : Nat) (healthOk : Bool) (thr : Nat) :
    Nat → List TurnEvent → AttemptResult
  | _, [] => .completedA
  | streak, e :: rest =>
    match e with
    | .plainEv => runAttempt retry healthOk thr streak rest
    | .exnMsg m => .exnA m
    | .toolMsg name status content =>
      if toolTrigger1 retry name status content then .triggeredInTry
      else
        let pr := emptyRecord thr streak name content
        if pr.2 && retry == 0 && !healthOk then .triggeredInTry
        else runAttempt retry healthOk thr pr.1 rest

/-- How a whole turn ends: normally; aborted because recovery failed
(`recover_sandbox` returned false and `execute_task` returned); or by an
exception surfacing to the caller. -/
inductive TurnOutcome where
  | completedT
  | abortedRecovery
  | raisedT
  deriving DecidableEq, Repr

/-- Observable outcome of a turn: how many recovery attempts were made
(calls to `recover_sandbox`), the `(user_input, _retry_count)` of every
`execute_task` invocation run, and the final outcome. -/
structure TurnRun where
  recoveryAttempts : Nat
  invocations : List (String × Nat)
  outcome : TurnOutcome
  deriving DecidableEq, Repr

/-- Outcome of one retried invocation (`_retry_count=1`): `none` if it
completes, `some m` if it re-raises an exception with message `m`.  Its
own `except` handler re-raises every exception, sandbox-classified or
not, because its condition requires `_retry_count == 0`; its in-`try`
recovery sites never fire at `_retry_count = 1` (the `triggeredInTry`
arm is unreachable — see `runAttempt_one_no_trigger`). -/
def retryRun (healthOk : Bool) (thr : Nat) (ev : List TurnEvent) : Option String :=
  match runAttempt 1 healthOk thr 0 ev with
  | .completedA => none
  | .triggeredInTry => none
  | .exnA m => some m

/-- `execute_task` at the turn level (executor.py), with the source's
call-frame nesting: the fresh invocation (`_retry_count=0`) runs its
stream inside `try:` (line 259).  A tool-result or empty-streak site
fires INSIDE that `try` and, after a successful `recover_sandbox`,
re-invokes `execute_task` with the original user text and
`_retry_count=1` at line 370/407 — still inside the outer `try`: if that
retried invocation re-raises a sandbox-classified exception, the
exception is caught by the OUTER frame's `except` (line 559) where
`_retry_count == 0` still holds, so a SECOND recovery is attempted and a
third invocation launched (from inside the `except`, whence its own
exceptions propagate to the caller).  An exception fault in the fresh
stream goes straight to the outer `except`: its retry is launched from
inside the handler, so a further exception propagates uncaught. -/
def execute_task (u : String) (recoverOk1 recoverOk2 : Bool)
    (healthOk0 healthOk1 healthOk2 : Bool) (thr : Nat)
    (ev0 ev1 ev2 : List TurnEvent) : TurnRun :=
  match runAttempt 0 healthOk0 thr 0 ev0 with
  | .completedA => ⟨0, [(u, 0)], .completedT⟩
  | .triggeredInTry =>
    -- recovery no. 1, retry launched from inside the outer try
    if recoverOk1 then
      match retryRun healthOk1 thr ev1 with
      | none => ⟨1, [(u, 0), (u, 1)], .completedT⟩
      | some m =>
        -- the retried run re-raised; caught by the OUTER except, retry 0
        if is_sandbox_error m then
          if recoverOk2 then
            match retryRun healthOk2 thr ev2 with
            | none => ⟨2, [(u, 0), (u, 1), (u, 1)], .completedT⟩
            | some _ => ⟨2, [(u, 0), (u, 1), (u, 1)], .raisedT⟩
          else ⟨2, [(u, 0), (u, 1)], .abortedRecovery⟩
        else ⟨1, [(u, 0), (u, 1)], .raisedT⟩
    else ⟨1, [(u, 0)], .abortedRecovery⟩
  | .exnA m =>
    -- the fresh stream raised; outer except, retry 0
    if is_sandbox_error m then
      if recoverOk1 then
        match retryRun healthOk1 thr ev1 with
        | none => ⟨1, [(u, 0), (u, 1)], .completedT⟩
        | some _ => ⟨1, [(u, 0), (u, 1)], .raisedT⟩
      else ⟨1, [(u, 0)], .abortedRecovery⟩
    else ⟨0, [(u, 0)], .raisedT⟩

/-! ## Phase 0 preprocessing (file mentions)

Embedding of the mention-expansion prologue of `execute_task`
(executor.py, the `mentioned_paths` block).  `parse_file_mentions`
(`ptc_cli/input/file_mentions.py`) is not in the corpus and is modelled
from the spec (§4.8). -/

/-- Collect maximal whitespace-separated words of a character list. -/
def wordsGo : List Char → List Char → List (List Char)
  | [], acc => if acc.isEmpty then [] else [acc.reverse]
  | c :: cs, acc =>
    if isPyWhite c then
      if acc.isEmpty then wordsGo cs [] else acc.reverse :: wordsGo cs []
    else wordsGo cs (c :: acc)

/-- Keep the first occurrence of each element. -/
def dedupFirst : List String → List String
  | [] => []
  | x :: xs => x :: dedupFirst (xs.filter (fun y => y ≠ x))
  termination_by xs => xs.length
  decreasing_by
    exact Nat.lt_succ_of_le (List.length_filter_le _ _)

/-- Modelled from the spec: `parse_file_mentions`
(`ptc_cli/input/file_mentions.py`, not in the corpus).  Per §4.8: tokens
beginning with `@` followed by a non-whitespace path; the result is the
original text unchanged plus the distinct mentioned paths in
first-occurrence order. -/
def parse_file_mentions (text : String) : String × List String :=
  let mentions := (wordsGo text.data []).filterMap
    (fun w =>
      match w with
      | '@' :: rest => if rest.isEmpty then none else some (String.mk rest)
      | _ => none)
  (text, dedupFirst mentions)

/-- Outcome of the `sandbox.read_file` call for one mentioned path:
content, `None` (missing), or a raised exception with its message. -/
inductive ReadOutcome where
  | found (content : String)
  | missingF
  | raisesF (msg : String)
  deriving DecidableEq, Repr

/-- The truncation marker appended by the executor. -/
def truncMarker : String := "\n... (file truncated)"

/-- Truncation applied to a mentioned file by the executor:
`if len(content) > _MAX_FILE_SIZE: content[:50000] + marker`
(`len` counts characters). -/
def truncateContent (content : String) : String :=
  if content.length > 50000 then
    String.mk (content.data.take 50000) ++ truncMarker
  else content

/-- The `"## Referenced Files"` section part for one mentioned path
(executor.py, the loop body over `mentioned_paths`). -/
def mentionPart (normalize : String → String) (readF : String → ReadOutcome)
    (path : String) : String :=
  match readF (normalize path) with
  | .raisesF e => "\n### " ++ path ++ "\n[Error reading file: " ++ e ++ "]"
  | .missingF => "\n### " ++ path ++ "\n[File not found: " ++ path ++ "]"
  | .found content =>
    "\n### " ++ path ++ "\nPath: `" ++ normalize path ++ "`\n```\n" ++
      truncateContent content ++ "\n```"

/-- Phase 0 of `execute_task` (executor.py): expand `@path` mentions into
an appended `"## Referenced Files"` section when a sandbox session is
active; with no mentions (or no sandbox) the prompt passes through. -/
def phase0 (user_input : String) (sandboxActive : Bool)
    (normalize : String → String) (readF : String → ReadOutcome) : String :=
  let pr := parse_file_mentions user_input
  if !pr.2.isEmpty && sandboxActive then
    String.intercalate "\n"
      (pr.1 :: "\n\n## Referenced Files\n" :: pr.2.map (mentionPart normalize readF))
  else pr.1

/-! ## Theorems -/

/-- If `xs` begins with `ps`, so does `xs ++ ys`. -/
theorem startsWithList_append (ps : List Char) :
    ∀ xs ys, startsWithList xs ps = true → startsWithList (xs ++ ys) ps = true := by
  induction ps with
  | nil => intro xs ys _; cases xs <;> simp [startsWithList]
  | cons p ps ih =>
    intro xs ys h
    cases xs with
    | nil => simp [startsWithList] at h
    | cons c cs =>
      simp [startsWithList] at h ⊢
      exact ⟨h.1, ih cs ys h.2⟩

/-- The access-denied message begins with the literal
`"ERROR: Access denied"`. -/
theorem accessDenied_starts (p : String) :
    strStartsWith (accessDeniedMsg p) "ERROR: Access denied" = true := by
  show startsWithList (("ERROR: Access denied: " ++ p ++
    " is not in allowed directories").data) _ = true
  have hdata : ("ERROR: Access denied: " ++ p ++
      " is not in allowed directories").data =
      "ERROR: Access denied: ".data ++
        (p.data ++ " is not in allowed directories".data) := by
    simp [String.data_append]
  rw [hdata]
  exact startsWithList_append _ _ _ (by decide)

/-- C6: with path validation enabled, every filesystem tool (read_file,
write_file, edit_file, glob, grep) returns the `ERROR: Access denied`
string for a path rejected by the allowed-directory check, without
invoking any backend operation (empty backend trace, file store
unchanged). -/
theorem tools_access_denied_no_backend (cfg : SandboxCfg) (fs : SandboxFS)
    (p pat oldS newS : String) (o l : Option Nat) (ra : Bool) (m : GrepMode)
    (hval : cfg.enable_path_validation = true)
    (hdeny : cfg.validate_path (cfg.normalize_path p) = false) :
    read_file cfg fs p o l = (accessDeniedMsg p, []) ∧
    write_file cfg fs p newS = (accessDeniedMsg p, fs, []) ∧
    edit_file cfg p oldS newS ra = (accessDeniedMsg p, []) ∧
    glob cfg pat (some p) = (accessDeniedMsg p, []) ∧
    grep cfg pat (some p) m = (accessDeniedMsg p, []) ∧
    strStartsWith (accessDeniedMsg p) "ERROR: Access denied" = true :=
  ⟨by simp [read_file, hval, hdeny],
   by simp [write_file, hval, hdeny],
   by simp [edit_file, hval, hdeny],
   by simp [glob, hval, hdeny],
   by simp [grep, hval, hdeny],
   accessDenied_starts p⟩

/-- A sandbox configuration that rejects every path, used to witness the
access-denied theorem. -/
def cfgDenyAll : SandboxCfg :=
  ⟨true, fun _ => false, id, id, true,
   fun _ _ _ _ => ⟨true, none, none⟩,
   fun _ _ => [],
   fun _ _ _ => .rFiles []⟩

/-- Witness for C6 at a concrete configuration and path. -/
theorem tools_access_denied_no_backend_witness :
    read_file cfgDenyAll ⟨[]⟩ "/etc/passwd" none none =
      (accessDeniedMsg "/etc/passwd", []) ∧
    write_file cfgDenyAll ⟨[]⟩ "/etc/passwd" "x" =
      (accessDeniedMsg "/etc/passwd", ⟨[]⟩, []) ∧
    edit_file cfgDenyAll "/etc/passwd" "a" "b" false =
      (accessDeniedMsg "/etc/passwd", []) ∧
    glob cfgDenyAll "*.py" (some "/etc/passwd") =
      (accessDeniedMsg "/etc/passwd", []) ∧
    grep cfgDenyAll "x" (some "/etc/passwd") .content =
      (accessDeniedMsg "/etc/passwd", []) ∧
    strStartsWith (accessDeniedMsg "/etc/passwd") "ERROR: Access denied" = true :=
  tools_access_denied_no_backend cfgDenyAll ⟨[]⟩ "/etc/passwd" "x" "a" "b"
    none none false .content rfl rfl

/-- C7 (divergence): the Bash tool applies no 10-minute clamp.  Requesting
a 900 000 ms timeout passes 900 seconds (15 minutes) to the sandbox, not
the 600 seconds the claim (and the tool docstring, which advertises
`max 600000 = 10 minutes`) requires. -/
theorem bash_timeout_not_clamped :
    (Bash "sleep 700" (some 900000) false "/home/daytona"
      ⟨true, "", "", 0⟩).2.timeoutSeconds = 900 ∧ (900 : ℚ) ≠ 600 := by
  constructor
  · simp [Bash, bashCombineOutput, bashTimeoutSeconds]
    norm_num
  · norm_num

/-- A string with a newline spliced into it is never empty. -/
theorem strAppend_ne_empty_mid (x y : String) : x ++ "\n" ++ y ≠ "" := by
  intro h
  have h2 := congrArg String.data h
  simp at h2

/-- `String.intercalate` on a one-element list. -/
theorem strIntercalate_single (s x : String) : String.intercalate s [x] = x := by
  simp [String.intercalate, String.intercalate.go]

/-- `String.intercalate` on a two-element list. -/
theorem strIntercalate_pair (s x y : String) :
    String.intercalate s [x, y] = x ++ s ++ y := by
  simp [String.intercalate, String.intercalate.go]

/-- C10: on backend success, the Bash tool returns the literal
`"Command completed successfully"` when both streams are empty, and the
non-empty streams joined with a newline otherwise. -/
theorem bash_success_output (cmd wd stdout stderr : String) (t : Option ℚ)
    (bg : Bool) (ec : Int) :
    ((stdout = "" ∧ stderr = "") →
      (Bash cmd t bg wd ⟨true, stdout, stderr, ec⟩).1 =
        "Command completed successfully") ∧
    ((stdout ≠ "" ∨ stderr ≠ "") →
      (Bash cmd t bg wd ⟨true, stdout, stderr, ec⟩).1 =
        String.intercalate "\n" ([stdout, stderr].filter (fun s => s ≠ ""))) := by
  constructor
  · rintro ⟨h1, h2⟩
    simp [Bash, bashCombineOutput, h1, h2]
  · intro h
    by_cases h1 : stdout = "" <;> by_cases h2 : stderr = ""
    · simp [h1, h2] at h
    · simp [Bash, bashCombineOutput, h1, h2, strIntercalate_single]
    · simp [Bash, bashCombineOutput, h1, h2, strIntercalate_single]
    · have hne := strAppend_ne_empty_mid stdout stderr
      simp [Bash, bashCombineOutput, h1, h2, hne, strIntercalate_pair]

/-- Witness for C10 at concrete outputs: empty streams give the literal
success message; non-empty streams are joined. -/
theorem bash_success_output_witness :
    (Bash "mkdir x" none false "/home/daytona" ⟨true, "", "", 0⟩).1 =
      "Command completed successfully" ∧
    (Bash "ls" none false "/home/daytona" ⟨true, "a.txt", "warn", 0⟩).1 =
      String.intercalate "\n" (["a.txt", "warn"].filter (fun s => s ≠ "")) :=
  ⟨(bash_success_output "mkdir x" "/home/daytona" "" "" none false 0).1 ⟨rfl, rfl⟩,
   (bash_success_output "ls" "/home/daytona" "a.txt" "warn" none false 0).2
     (Or.inl (by decide))⟩

/-- C3: with no explicit sandbox id, persistence enabled, a persisted
record whose hash matches the current fingerprint, and a successful
reattach, the lifecycle makes exactly one `initialize` call (with the
persisted id), refreshes the record's `last_used` timestamp in place
(`created_at` and the rest of the record untouched), reports the sandbox
as reused, and saves no new record. -/
theorem lifecycle_happy_reattach (d : SessionData) (now : Int)
    (cfgHash : String) (initOk : Option String → Bool) (freshId : Option String)
    (hload : load_persisted_session (some (.recF d)) now = (some d, some (.recF d)))
    (hhash : d.config_hash = some cfgHash)
    (hinit : initOk (some (d.sandbox_id.getD "")) = true) :
    create_agent_with_session none true (some (.recF d)) now cfgHash initOk freshId =
      ⟨[some (d.sandbox_id.getD "")],
       some (.recF { d with last_used := some (.parsed now true) }),
       true, .ok⟩ := by
  unfold create_agent_with_session
  rw [hload]
  simp [hhash, hinit, update_session_last_used]

/-- A concrete one-hour-old persisted record used in witnesses. -/
def recFresh : SessionData :=
  ⟨some "S1", some "abcd1234", some (.parsed 0 true), some (.parsed 3600 true)⟩

/-- Witness for C3: the S1 scenario of the spec, one hour after
`last_used`. -/
theorem lifecycle_happy_reattach_witness :
    create_agent_with_session none true (some (.recF recFresh)) 7200 "abcd1234"
      (fun _ => true) none =
      ⟨[some "S1"],
       some (.recF { recFresh with last_used := some (.parsed 7200 true) }),
       true, .ok⟩ :=
  lifecycle_happy_reattach recFresh 7200 "abcd1234" (fun _ => true) none
    (by decide) rfl rfl

/-- C4 (amended): `load` returns absent exactly when the file is missing,
the JSON is invalid, a required field is missing or empty, the `last_used`
timestamp is unparseable, or the record is older than 24 hours; the file
is deleted in the invalid-JSON, bad-timestamp and over-age cases, but a
record that merely lacks a required field is left in place. -/
theorem load_absent_characterization (now : Int) :
    load_persisted_session none now = (none, none) ∧
    load_persisted_session (some .badJson) now = (none, none) ∧
    (∀ d, (strFalsy d.sandbox_id || strFalsy d.config_hash) = true →
      load_persisted_session (some (.recF d)) now = (none, some (.recF d))) ∧
    (∀ d, (strFalsy d.sandbox_id || strFalsy d.config_hash) = false →
      d.last_used = some .malformed →
      load_persisted_session (some (.recF d)) now = (none, none)) ∧
    (∀ d t tz, (strFalsy d.sandbox_id || strFalsy d.config_hash) = false →
      d.last_used = some (.parsed t tz) → now - t > sessionMaxAgeSeconds →
      load_persisted_session (some (.recF d)) now = (none, none)) ∧
    (∀ d, (strFalsy d.sandbox_id || strFalsy d.config_hash) = false →
      d.last_used = none →
      load_persisted_session (some (.recF d)) now = (some d, some (.recF d))) ∧
    (∀ d t tz, (strFalsy d.sandbox_id || strFalsy d.config_hash) = false →
      d.last_used = some (.parsed t tz) → ¬(now - t > sessionMaxAgeSeconds) →
      load_persisted_session (some (.recF d)) now = (some d, some (.recF d))) := by
  refine ⟨rfl, rfl, ?_, ?_, ?_, ?_, ?_⟩
  · intro d h
    simp [load_persisted_session, h]
  · intro d h hlu
    simp [load_persisted_session, h, hlu]
  · intro d t tz h hlu hage
    simp [load_persisted_session, h, hlu, hage]
  · intro d h hlu
    simp [load_persisted_session, h, hlu]
  · intro d t tz h hlu hage
    simp [load_persisted_session, h, hlu, hage]

/-- A session file whose record lacks the required `sandbox_id` field. -/
def c4File : Option RawFile :=
  some (.recF ⟨none, some "abcd1234", some (.parsed 0 true), some (.parsed 0 true)⟩)

/-- C4 (counterexample): a present session file missing a required field
makes `load` return absent WITHOUT deleting the file, contradicting the
claim that every absent-returning case other than a missing file deletes
it. -/
theorem load_missing_field_not_deleted :
    (load_persisted_session c4File 0).1 = none ∧
    (load_persisted_session c4File 0).2 = c4File ∧ c4File ≠ none := by decide

/-- Witness for C4 at concrete records: a record missing `sandbox_id`
loads absent with the file left in place; an over-age record loads absent
with the file deleted. -/
theorem load_absent_characterization_witness :
    load_persisted_session
      (some (.recF ⟨none, some "abcd1234", none, none⟩)) 0 =
      (none, some (.recF ⟨none, some "abcd1234", none, none⟩)) ∧
    load_persisted_session
      (some (.recF ⟨some "S1", some "abcd1234", some (.parsed 0 true),
        some (.parsed 0 true)⟩)) 90000 = (none, none) :=
  ⟨(load_absent_characterization 0).2.2.1 _ rfl,
   (load_absent_characterization 90000).2.2.2.2.1 _ 0 true rfl rfl (by decide)⟩

/-- The first recovery site can never fire at `_retry_count = 1`. -/
theorem toolTrigger1_retry_one (n s c : String) : toolTrigger1 1 n s c = false := by
  unfold toolTrigger1
  split
  · rfl
  · split
    · simp [Nat.succ_ne_zero]
    · rfl

/-- No in-`try` recovery site fires in an invocation carrying
`_retry_count = 1`: both sites require `_retry_count == 0`. -/
theorem runAttempt_one_no_trigger (h1 : Bool) (thr : Nat) :
    ∀ (ev : List TurnEvent) (streak : Nat),
      runAttempt 1 h1 thr streak ev ≠ .triggeredInTry := by
  intro ev
  induction ev with
  | nil => intro streak; simp [runAttempt]
  | cons e rest ih =>
    intro streak
    cases e with
    | plainEv => simpa [runAttempt] using ih streak
    | exnMsg m => simp [runAttempt]
    | toolMsg n s c =>
      simp [runAttempt, toolTrigger1_retry_one]
      exact ih _

/-- C2: the code violates "at most one recovery attempt per turn".  A
sandbox-classified tool-result error in the fresh stream fires the
in-`try` recovery site; the retried invocation then raises a
sandbox-classified exception, which lands in the ORIGINAL frame's
`except` — where `_retry_count == 0` — so `recover_sandbox` runs a
second time and a third invocation is launched: two recovery attempts
and three invocations in one turn, against the claim's (and the source
comments' own "Retry the task once") single-retry discipline.  The last
two conjuncts show both triggering events are classified faults. -/
theorem execute_task_double_recovery :
    execute_task "task" true true true true true 3
      [.toolMsg "execute" "success" "Error: sandbox disconnected"]
      [.exnMsg "sandbox connection refused"]
      [.plainEv] =
      ⟨2, [("task", 0), ("task", 1), ("task", 1)], .completedT⟩ ∧
    toolTrigger1 0 "execute" "success" "Error: sandbox disconnected" = true ∧
    is_sandbox_error "sandbox connection refused" = true := by
  decide

/-- Unfolding `countId` over a cons. -/
theorem countId_cons (k : String) (t : CompletedTool) (ts : List CompletedTool) :
    countId k (t :: ts) =
      (if t.tid == some k then 1 else 0) + countId k ts := by
  by_cases h : t.tid == some k <;> simp [countId, List.filter, h] <;> omega

/-- The displayed-set guard turns any number of buffer completions for a
chunk id into at most one emission: the emitted count for `k` is zero if
`k` is already displayed, and otherwise the completion count capped at
one. -/
theorem runExec_count (k : String) :
    ∀ (bs : List ChunkBlock) (es : List BufEntry) (disp : List String),
      countId k (runExec es disp bs) =
        if k ∈ disp then 0
        else min 1 (countId k (runCompletions es bs)) := by
  intro bs
  induction bs with
  | nil =>
    intro es disp
    by_cases h : k ∈ disp <;> simp [runExec, runCompletions, countId, h]
  | cons b bs ih =>
    intro es disp
    rcases hadd : addChunk es b with ⟨es1, c?⟩
    rcases c? with _ | t
    · rw [show runExec es disp (b :: bs) = runExec es1 disp bs by
        simp [runExec, execStep, hadd]]
      rw [show runCompletions es (b :: bs) = runCompletions es1 bs by
        simp [runCompletions, hadd]]
      exact ih es1 disp
    · rcases htid : t.tid with _ | k0
      · -- completion without id: emitted unconditionally, never counted for k
        rw [show runExec es disp (b :: bs) = t :: runExec es1 disp bs by
          simp [runExec, execStep, hadd, htid]]
        rw [show runCompletions es (b :: bs) = t :: runCompletions es1 bs by
          simp [runCompletions, hadd]]
        rw [countId_cons, countId_cons]
        simp [htid]
        exact ih es1 disp
      · by_cases hk : k0 ∈ disp
        · -- already displayed: skipped
          rw [show runExec es disp (b :: bs) = runExec es1 disp bs by
            simp [runExec, execStep, hadd, htid, hk]]
          rw [show runCompletions es (b :: bs) = t :: runCompletions es1 bs by
            simp [runCompletions, hadd]]
          rw [countId_cons]
          by_cases hkk : k0 = k
          · subst hkk
            simp [hk, ih es1 disp]
          · have hne : (t.tid == some k) = false := by
              simp [htid, hkk]
            simp [hne, ih es1 disp]
        · -- fresh id: emitted and marked displayed
          rw [show runExec es disp (b :: bs) = t :: runExec es1 (k0 :: disp) bs by
            simp [runExec, execStep, hadd, htid, hk]]
          rw [show runCompletions es (b :: bs) = t :: runCompletions es1 bs by
            simp [runCompletions, hadd]]
          rw [countId_cons, countId_cons]
          by_cases hkk : k0 = k
          · subst hkk
            rw [ih es1 (k0 :: disp)]
            simp [htid, hk]
          · have hne : (t.tid == some k) = false := by simp [htid, hkk]
            have hmem : (k ∈ k0 :: disp) ↔ (k ∈ disp) := by
              simp [List.mem_cons, Ne.symm hkk]
            rw [ih es1 (k0 :: disp), hne]
            simp only [hmem]
            simp

/-- C1: for every fragment stream that delivers (at least) one completed
tool call with chunk id `k`, the executor emits exactly one call for `k`,
even when fragments or the completed call are re-delivered: the
displayed-set guard skips any later completion for an id already
displayed. -/
theorem executor_emits_once (bs : List ChunkBlock) (k : String)
    (hdelivered : 0 < countId k (runCompletions [] bs)) :
    countId k (runExec [] [] bs) = 1 := by
  rw [runExec_count k bs [] []]
  simp only [List.not_mem_nil, if_false]
  omega

/-- A stream that re-delivers the same completed call and re-sends
fragments for the same id, used to witness C1. -/
def bsRedelivery : List ChunkBlock :=
  [⟨.callBlock, some "k1", some "read_file", "[]", false⟩,
   ⟨.callBlock, some "k1", some "read_file", "[]", false⟩,
   ⟨.chunkFrag, some "k1", some "read_file", "[]", true⟩]

/-- Witness for C1: three completions are delivered for id `k1`, exactly
one call is emitted. -/
theorem executor_emits_once_witness :
    0 < countId "k1" (runCompletions [] bsRedelivery) ∧
    countId "k1" (runExec [] [] bsRedelivery) = 1 :=
  ⟨by decide, executor_emits_once bsRedelivery "k1" (by decide)⟩

/-- Every character `hex8` produces is a lowercase hex digit. -/
theorem hex8_mem (w : Nat) : ∀ ch ∈ hex8 w, ch ∈ hexChars := by
  have h16 : ∀ m, m < 16 → hxD m ∈ hexChars := by decide
  intro ch hch
  simp only [hex8, List.mem_cons, List.not_mem_nil, or_false] at hch
  rcases hch with h | h | h | h | h | h | h | h <;> subst h <;>
    exact h16 _ (Nat.mod_lt _ (by omega))

/-- `hex8` always renders eight characters. -/
theorem hex8_length (w : Nat) : (hex8 w).length = 8 := by simp [hex8]

/-- The hex digest of any byte list has 64 characters. -/
theorem sha256hexChars_length (ms : List Nat) :
    (sha256hexChars ms).length = 64 := by
  simp [sha256hexChars, sha256Words, hex8_length]

/-- Every character of the hex digest is a lowercase hex digit. -/
theorem sha256hexChars_mem (ms : List Nat) :
    ∀ ch ∈ sha256hexChars ms, ch ∈ hexChars := by
  intro ch hch
  simp only [sha256hexChars, List.mem_flatten, List.mem_map] at hch
  rcases hch with ⟨l, ⟨w, _, hw⟩, hchl⟩
  exact hex8_mem w ch (hw ▸ hchl)

/-- C5: the session fingerprint is computed only from the sandbox base
URL, the runtime python version, snapshot enablement, snapshot name, and
the per-server descriptors (name, enabled flag, transport, command,
args) — two configurations agreeing on these fields (whatever their other
fields: api key, intervals, server descriptions, env, urls, ...) get the
same fingerprint — and it is an 8-character lowercase-hex digest. -/
theorem fingerprint_fields (c1 c2 : CoreConfig)
    (hb : c1.daytona.base_url = c2.daytona.base_url)
    (hp : c1.daytona.python_version = c2.daytona.python_version)
    (hs : c1.daytona.snapshot_enabled = c2.daytona.snapshot_enabled)
    (hn : c1.daytona.snapshot_name = c2.daytona.snapshot_name)
    (hm : c1.mcp.servers.map toDescriptor = c2.mcp.servers.map toDescriptor) :
    get_session_config_hash c1 = get_session_config_hash c2 ∧
    (get_session_config_hash c1).length = 8 ∧
    ∀ ch ∈ (get_session_config_hash c1).data, ch ∈ hexChars := by
  refine ⟨?_, ?_, ?_⟩
  · unfold get_session_config_hash configJson
    rw [hb, hp, hs, hn, hm]
  · show (String.mk _).length = 8
    simp [String.length, List.length_take, sha256hexChars_length]
  · intro ch hch
    have hch2 : ch ∈ (sha256hexChars (utf8Bytes (configJson c1))).take 8 := hch
    exact sha256hexChars_mem _ ch (List.mem_of_mem_take hch2)

/-- A concrete configuration for the fingerprint witness. -/
def cfgA : CoreConfig :=
  ⟨⟨"key-one", "https://app.daytona.io/api", 15, "3.12", true, none, true⟩,
   ⟨[⟨"zeta", true, "server zeta", .stdio, some "uvx", ["run", "x"], none⟩,
     ⟨"alpha", false, "", .http, none, [], some "http://u"⟩], true⟩⟩

/-- The same configuration with every fingerprint-irrelevant field
changed. -/
def cfgB : CoreConfig :=
  ⟨⟨"key-two", "https://app.daytona.io/api", 90, "3.12", true, none, false⟩,
   ⟨[⟨"zeta", true, "", .stdio, some "uvx", ["run", "x"], some "http://w"⟩,
     ⟨"alpha", false, "other", .http, none, [], none⟩], false⟩⟩

/-- Witness for C5: two configurations agreeing only on the
fingerprint-relevant fields hash identically, to an 8-hex-char value. -/
theorem fingerprint_fields_witness :
    get_session_config_hash cfgA = get_session_config_hash cfgB ∧
    (get_session_config_hash cfgA).length = 8 ∧
    ∀ ch ∈ (get_session_config_hash cfgA).data, ch ∈ hexChars :=
  fingerprint_fields cfgA cfgB rfl rfl rfl rfl rfl

/-- Drop everything up to and including the first `'→'` of a line — the
inverse of the line-number formatting, used to state that `read_file`
output is the written content with prefixes attached. -/
def dropThroughArrow (cs : List Char) : List Char :=
  (cs.dropWhile (fun c => c != '→')).drop 1

/-- Remove the line-number formatting from every line of a `read_file`
result. -/
def stripArrows (s : String) : String :=
  String.mk (List.intercalate ['\n']
    ((splitOnCharList '\n' s.data).map dropThroughArrow))

/-- The rendering described by the claim's words (a second definition,
kept for comparison with the source embedding): every newline-separated
line of `c` carries the right-aligned 1-indexed line number and `'→'`. -/
def claimNumberedRender (c : String) : String :=
  String.mk (List.intercalate ['\n']
    (numberLines 1 (splitOnCharList '\n' c.data)))

/-- `write_file` then `read_file` on the same path (the round trip of the
claim). -/
def writeThenRead (cfg : SandboxCfg) (fs : SandboxFS) (p c : String) : String :=
  (read_file cfg (write_file cfg fs p c).2.1 p none none).1

set_option maxHeartbeats 1600000 in
/-- Every character of every segment `slAll` produces is a non-break
character drawn from the input or the accumulator. -/
theorem slAll_no_break :
    ∀ (cs acc : List Char), (∀ c ∈ acc, isLineBreak c = false) →
      ∀ l ∈ slAll cs acc, ∀ ch ∈ l, isLineBreak ch = false := by
  have hnil : ∀ c ∈ ([] : List Char), isLineBreak c = false := by
    intro c hc
    cases hc
  intro cs acc
  induction cs, acc using slAll.induct with
  | case1 acc =>
    intro hacc l hl ch hch
    simp [slAll] at hl
    subst hl
    exact hacc ch (by simpa using hch)
  | case2 cs2 acc ih =>
    intro hacc l hl ch hch
    rw [show slAll ('\r' :: '\n' :: cs2) acc =
      acc.reverse :: slAll cs2 [] from rfl] at hl
    simp only [List.mem_cons] at hl
    rcases hl with hl | hl
    · subst hl; exact hacc ch (by simpa using hch)
    · exact ih hnil l hl ch hch
  | case3 c cs acc hpat hbr ih =>
    intro hacc l hl ch hch
    rw [show slAll (c :: cs) acc = acc.reverse :: slAll cs [] by
      rw [slAll.eq_def]
      rcases cs with _ | ⟨c2, cs2⟩
      · simp [hbr]
      · rcases hc : decide (c = '\r') with _ | _
        · have hcr : ¬ c = '\r' := of_decide_eq_false hc
          simp [hbr, hcr]
        · have hcr : c = '\r' := of_decide_eq_true hc
          subst hcr
          rcases hc2 : decide (c2 = '\n') with _ | _
          · have hc2n : ¬ c2 = '\n' := of_decide_eq_false hc2
            simp [hbr, hc2n]
          · have hc2n : c2 = '\n' := of_decide_eq_true hc2
            subst hc2n
            exact (hpat cs2 rfl rfl).elim] at hl
    simp only [List.mem_cons] at hl
    rcases hl with hl | hl
    · subst hl; exact hacc ch (by simpa using hch)
    · exact ih hnil l hl ch hch
  | case4 c cs acc hpat hbr ih =>
    intro hacc l hl ch hch
    rw [show slAll (c :: cs) acc = slAll cs (c :: acc) by
      rw [slAll.eq_def]
      rcases cs with _ | ⟨c2, cs2⟩
      · simp [hbr]
      · rcases hc : decide (c = '\r') with _ | _
        · have hcr : ¬ c = '\r' := of_decide_eq_false hc
          simp [hbr, hcr]
        · have hcr : c = '\r' := of_decide_eq_true hc
          exact absurd hbr (by simp [hcr, isLineBreak])] at hl
    refine ih ?_ l hl ch hch
    intro c3 hc3
    rcases hc3 with _ | hc3
    · simpa using hbr
    · exact hacc c3 (by assumption)

/-- Every segment of `splitlinesList` is free of line-break characters
(in particular of `'\n'`). -/
theorem splitlines_no_break (cs : List Char) :
    ∀ l ∈ splitlinesList cs, ∀ ch ∈ l, isLineBreak ch = false := by
  intro l hl ch hch
  have hnil : ∀ c ∈ ([] : List Char), isLineBreak c = false := by
    intro c hc
    cases hc
  rcases cs with _ | ⟨c, cs⟩
  · simp [splitlinesList] at hl
  · have hfull : l ∈ slAll (c :: cs) [] := by
      unfold splitlinesList at hl
      by_cases hbr : isLineBreak ((c :: cs).getLastD ' ') = true
      · rw [if_pos hbr] at hl
        exact List.dropLast_subset _ hl
      · rw [if_neg hbr] at hl
        exact hl
    exact slAll_no_break (c :: cs) [] hnil l hfull ch hch

/-- The digit character table lookup stays in the table. -/
theorem digChar_mem (m : Nat) : digChar m ∈ decChars := by
  unfold digChar
  by_cases h : m < decChars.length
  · rw [List.getD_eq_getElem _ _ h]
    exact List.getElem_mem h
  · rw [List.getD_eq_default _ _ (by omega)]
    decide

/-- Every character the fuelled renderer produces is a decimal digit. -/
theorem natDigitsAux_mem :
    ∀ (fuel n : Nat), ∀ ch ∈ natDigitsAux fuel n, ch ∈ decChars := by
  intro fuel
  induction fuel with
  | zero =>
    intro n ch hch
    simp [natDigitsAux] at hch
    subst hch
    exact digChar_mem n
  | succ fuel ih =>
    intro n ch hch
    rw [natDigitsAux] at hch
    by_cases h : n < 10
    · rw [if_pos h] at hch
      simp at hch
      subst hch
      exact digChar_mem n
    · rw [if_neg h] at hch
      rcases List.mem_append.mp hch with hch | hch
      · exact ih _ ch hch
      · simp at hch
        subst hch
        exact digChar_mem _

/-- Every character `natDigits` renders is a decimal digit. -/
theorem natDigits_mem (n : Nat) : ∀ ch ∈ natDigits n, ch ∈ decChars :=
  natDigitsAux_mem n n

/-- The pad of a formatted line (spaces and digits) contains neither
`'→'` nor a line break. -/
theorem fmtPad_chars (k : Nat) :
    ∀ ch ∈ rightAlign6 (natDigits k), ch ≠ '→' ∧ isLineBreak ch = false := by
  intro ch hch
  rcases List.mem_append.mp hch with hch | hch
  · have : ch = ' ' := List.eq_of_mem_replicate hch
    subst this
    exact ⟨by decide, by decide⟩
  · have hd := natDigits_mem k ch hch
    have hall : ∀ c ∈ decChars, c ≠ '→' ∧ isLineBreak c = false := by decide
    exact hall ch hd

/-- Dropping while a predicate holds skips a block that satisfies it. -/
theorem dropWhile_append_all (p : Char → Bool) :
    ∀ (xs ys : List Char), (∀ x ∈ xs, p x = true) →
      (xs ++ ys).dropWhile p = ys.dropWhile p := by
  intro xs ys h
  induction xs with
  | nil => rfl
  | cons x xs ih =>
    have hx : p x = true := h x (by simp)
    simp [List.dropWhile, hx]
    exact ih (fun y hy => h y (by simp [hy]))

/-- Removing the line-number formatting of one line recovers the line. -/
theorem dropThroughArrow_fmt (k : Nat) (l : List Char) :
    dropThroughArrow (fmtNumLine k l) = l := by
  unfold dropThroughArrow fmtNumLine
  rw [dropWhile_append_all _ _ _
    (fun x hx => by simp [(fmtPad_chars k x hx).1])]
  simp [List.dropWhile]

/-- A list free of the separator splits into itself. -/
theorem splitOnChar_no_sep (sep : Char) :
    ∀ (cs : List Char), (∀ c ∈ cs, c ≠ sep) →
      splitOnCharList sep cs = [cs] := by
  intro cs h
  induction cs with
  | nil => rfl
  | cons c cs ih =>
    have hc : c ≠ sep := h c (by simp)
    rw [splitOnCharList, ih (fun y hy => h y (by simp [hy]))]
    simp [hc]

/-- Splitting a list that starts with a separator-free block and a
separator peels off the block. -/
theorem splitOnChar_block (sep : Char) :
    ∀ (xs rest : List Char), (∀ c ∈ xs, c ≠ sep) →
      splitOnCharList sep (xs ++ sep :: rest) =
        xs :: splitOnCharList sep rest := by
  intro xs rest h
  induction xs with
  | nil => simp [splitOnCharList]
  | cons x xs ih =>
    have hx : x ≠ sep := h x (by simp)
    have hrec := ih (fun y hy => h y (by simp [hy]))
    rw [List.cons_append, splitOnCharList, hrec]
    simp [hx]

/-- A character that is not a line break is not `'\n'`. -/
theorem ne_newline_of_no_break {c : Char} (h : isLineBreak c = false) :
    c ≠ '\n' := by
  intro he
  subst he
  simp [isLineBreak] at h

/-- A formatted line contains no newline when its content does not. -/
theorem fmt_no_newline (k : Nat) (l : List Char)
    (hl : ∀ ch ∈ l, isLineBreak ch = false) :
    ∀ c ∈ fmtNumLine k l, c ≠ '\n' := by
  intro c hc
  unfold fmtNumLine at hc
  rcases List.mem_append.mp hc with hc | hc
  · exact ne_newline_of_no_break (fmtPad_chars k c hc).2
  · rcases hc with _ | hc
    · decide
    · exact ne_newline_of_no_break (hl c (by assumption))

/-- `List.intercalate` over a singleton. -/
theorem intercalate_singleton (sep x : List Char) :
    List.intercalate sep [x] = x := by
  simp [List.intercalate]

/-- `List.intercalate` over a list with at least two elements. -/
theorem intercalate_cons₂ (sep x y : List Char) (l : List (List Char)) :
    List.intercalate sep (x :: y :: l) =
      x ++ sep ++ List.intercalate sep (y :: l) := by
  simp [List.intercalate, List.intersperse]

/-- Splitting the numbered rendering of break-free lines at newlines and
stripping each prefix recovers the lines. -/
theorem stripArrows_numberLines :
    ∀ (ls : List (List Char)) (i : Nat),
      (∀ l ∈ ls, ∀ ch ∈ l, isLineBreak ch = false) → ls ≠ [] →
      (splitOnCharList '\n'
        (List.intercalate ['\n'] (numberLines i ls))).map dropThroughArrow =
        ls := by
  intro ls
  induction ls with
  | nil => intro i _ hne; exact absurd rfl hne
  | cons x rest ih =>
    intro i h _
    rcases rest with _ | ⟨y, rest2⟩
    · rw [show numberLines i [x] = [fmtNumLine i x] from rfl,
        intercalate_singleton,
        splitOnChar_no_sep '\n' _ (fmt_no_newline i x (h x (by simp)))]
      simp [dropThroughArrow_fmt]
    · rw [show numberLines i (x :: y :: rest2) =
        fmtNumLine i x :: numberLines (i + 1) (y :: rest2) from rfl]
      rw [show numberLines (i + 1) (y :: rest2) =
        fmtNumLine (i + 1) y :: numberLines (i + 2) rest2 from rfl]
      rw [intercalate_cons₂]
      rw [show fmtNumLine i x ++ ['\n'] ++
        List.intercalate ['\n']
          (fmtNumLine (i + 1) y :: numberLines (i + 2) rest2) =
        fmtNumLine i x ++ '\n' ::
          List.intercalate ['\n']
            (fmtNumLine (i + 1) y :: numberLines (i + 2) rest2) by
        simp]
      rw [splitOnChar_block '\n' _ _ (fmt_no_newline i x (h x (by simp)))]
      rw [List.map_cons, dropThroughArrow_fmt]
      have hrest := ih (i + 1) (fun l hl => h l (by simp [hl])) (by simp)
      rw [show numberLines (i + 1) (y :: rest2) =
        fmtNumLine (i + 1) y :: numberLines (i + 2) rest2 from rfl] at hrest
      rw [hrest]

/-- C8 (amended): after a successful `write_file(p, c)`, `read_file(p)`
returns the lines of `c` (as Python `splitlines` computes them) each
prefixed with the right-aligned 1-indexed line number and `'→'`; when `c`
is the newline-join of its own lines — no trailing line break and no
break characters other than the separating newlines — stripping the
prefixes recovers `c` exactly; a missing file reads as an
`ERROR: File not found` string. -/
theorem write_read_roundtrip (cfg : SandboxCfg) (fs : SandboxFS) (p c : String)
    (hguard : (cfg.enable_path_validation &&
      !(cfg.validate_path (cfg.normalize_path p))) = false)
    (hwrite : cfg.writeOk = true)
    (hcanon : List.intercalate ['\n'] (splitlinesList c.data) = c.data) :
    writeThenRead cfg fs p c = numberContent 1 c ∧
    stripArrows (numberContent 1 c) = c ∧
    (∀ fs2 : SandboxFS, fs2.readF (cfg.normalize_path p) = none →
      (read_file cfg fs2 p none none).1 = "ERROR: File not found: " ++ p) := by
  refine ⟨?_, ?_, ?_⟩
  · simp [writeThenRead, write_file, read_file, hguard, hwrite,
      SandboxFS.writeF, SandboxFS.readF, List.lookup]
  · by_cases hnil : splitlinesList c.data = []
    · have hcd : c.data = [] := by rw [← hcanon, hnil]; rfl
      rcases c with ⟨cd⟩
      simp at hcd
      subst hcd
      decide
    · have hmap := stripArrows_numberLines (splitlinesList c.data) 1
        (splitlines_no_break c.data) hnil
      unfold numberContent stripArrows
      rw [show (String.mk (List.intercalate ['\n']
          (numberLines 1 (splitlinesList c.data)))).data =
        List.intercalate ['\n'] (numberLines 1 (splitlinesList c.data))
        from rfl]
      rw [hmap, hcanon]
  · intro fs2 hmiss
    simp [read_file, hguard, hmiss]

/-- A sandbox configuration with validation off and identity path maps,
used in the C8 witness and counterexamples. -/
def cfgPlain : SandboxCfg :=
  ⟨false, fun _ => true, id, id, true,
   fun _ _ _ _ => ⟨true, none, none⟩,
   fun _ _ => [],
   fun _ _ _ => .rFiles []⟩

/-- Witness for C8 at a concrete two-line content without a trailing
newline, plus the missing-file message. -/
theorem write_read_roundtrip_witness :
    writeThenRead cfgPlain ⟨[]⟩ "/home/user/f.txt" "alpha\nbeta" =
      numberContent 1 "alpha\nbeta" ∧
    stripArrows (numberContent 1 "alpha\nbeta") = "alpha\nbeta" ∧
    (read_file cfgPlain ⟨[]⟩ "/missing.txt" none none).1 =
      "ERROR: File not found: " ++ "/missing.txt" :=
  have h := write_read_roundtrip cfgPlain ⟨[]⟩ "/home/user/f.txt" "alpha\nbeta"
    rfl rfl (by decide)
  have h2 := write_read_roundtrip cfgPlain ⟨[]⟩ "/missing.txt" "x"
    rfl rfl (by decide)
  ⟨h.1, h.2.1, h2.2.2 ⟨[]⟩ rfl⟩

/-- C8 (counterexample): for a content with a trailing newline the round
trip is NOT the content with line-number prefixes: Python `splitlines`
drops the trailing empty segment, so the claimed per-line rendering
differs from what `read_file` returns, and stripping the prefixes yields
`"a"`, not `"a\n"`. -/
theorem write_read_trailing_newline_lost :
    writeThenRead cfgPlain ⟨[]⟩ "/f" "a\n" = "     1→a" ∧
    claimNumberedRender "a\n" = "     1→a\n     2→" ∧
    writeThenRead cfgPlain ⟨[]⟩ "/f" "a\n" ≠ claimNumberedRender "a\n" ∧
    stripArrows (writeThenRead cfgPlain ⟨[]⟩ "/f" "a\n") = "a" ∧
    ("a" : String) ≠ "a\n" := by decide

/-- C9 (amended): the content of an existing `@path` mention is truncated
at 50 000 CHARACTERS (with the truncation marker appended), the mention of
a missing file is annotated in the section, a read error is annotated in
the section, and the turn does not fail (the assembly is total). -/
theorem phase0_mention_handling (content : String)
    (normalize : String → String) (readF : String → ReadOutcome)
    (path : String) :
    (truncateContent content).length ≤ 50000 + truncMarker.length ∧
    (content.length ≤ 50000 → truncateContent content = content) ∧
    (content.length > 50000 →
      truncateContent content =
        String.mk (content.data.take 50000) ++ truncMarker) ∧
    (readF (normalize path) = .missingF →
      mentionPart normalize readF path =
        "\n### " ++ path ++ "\n[File not found: " ++ path ++ "]") ∧
    (∀ e, readF (normalize path) = .raisesF e →
      mentionPart normalize readF path =
        "\n### " ++ path ++ "\n[Error reading file: " ++ e ++ "]") := by
  refine ⟨?_, ?_, ?_, ?_, ?_⟩
  · unfold truncateContent
    by_cases h : content.length > 50000
    · rw [if_pos h]
      have hle : (String.mk (content.data.take 50000)).length ≤ 50000 := by
        show (content.data.take 50000).length ≤ 50000
        rw [List.length_take]
        omega
      calc (String.mk (content.data.take 50000) ++ truncMarker).length
          = (String.mk (content.data.take 50000)).length +
              truncMarker.length := by
            rw [String.length_append]
        _ ≤ 50000 + truncMarker.length := by omega
    · rw [if_neg h]
      omega
  · intro h
    unfold truncateContent
    rw [if_neg (by omega)]
  · intro h
    unfold truncateContent
    rw [if_pos h]
  · intro h
    unfold mentionPart
    rw [h]
  · intro e h
    unfold mentionPart
    rw [h]

/-- Witness for C9: a short content passes through untouched; a missing
mention is annotated in place. -/
theorem phase0_mention_handling_witness :
    truncateContent "abc" = "abc" ∧
    mentionPart id (fun _ => .missingF) "p" =
      "\n### " ++ "p" ++ "\n[File not found: " ++ "p" ++ "]" :=
  have h := phase0_mention_handling "abc" id (fun _ => .missingF) "p"
  ⟨h.2.1 (by decide), h.2.2.2.1 rfl⟩

/-- UTF-8 byte length distributes over string append. -/
theorem utf8Len_append (a b : String) : utf8Len (a ++ b) = utf8Len a + utf8Len b := by
  show ((a.data ++ b.data).map utf8CharLen).sum = _
  rw [List.map_append, List.sum_append]
  rfl

/-- A 50 001-character content of two-byte characters. -/
def bigContent : String := String.mk (List.replicate 50001 'é')

/-- C9 (counterexample): truncation is by characters, not bytes.  For a
50 001-character content of two-byte characters the fenced content the
executor includes weighs 100 000 bytes plus the marker — far beyond the
claimed 50 000-byte bound — while `mentionPart` embeds it verbatim. -/
theorem phase0_truncation_not_bytes :
    50000 + utf8Len truncMarker < utf8Len (truncateContent bigContent) ∧
    mentionPart id (fun _ => .found bigContent) "f" =
      "\n### f\nPath: `f`\n```\n" ++ truncateContent bigContent ++ "\n```" := by
  constructor
  · have hlen : bigContent.length = 50001 := by
      show (List.replicate 50001 'é').length = 50001
      rw [List.length_replicate]
    have htr : truncateContent bigContent =
        String.mk (List.replicate 50000 'é') ++ truncMarker := by
      unfold truncateContent
      rw [if_pos (by omega)]
      show String.mk ((List.replicate 50001 'é').take 50000) ++ _ = _
      rw [List.take_replicate]
      norm_num
    rw [htr]
    have h1 : utf8Len (String.mk (List.replicate 50000 'é')) = 100000 := by
      show ((List.replicate 50000 'é').map utf8CharLen).sum = 100000
      rw [List.map_replicate, List.sum_replicate, smul_eq_mul,
        show utf8CharLen 'é' = 2 from by decide]
    rw [utf8Len_append, h1]
    have h3 : utf8Len truncMarker = 21 := by decide
    omega
  · rfl
